import Mathlib

/-!
Shallow embedding of `helper.py` (SatelliteClassification): geospatial helper
routines over vector datasets (GeoPandas), a geodatabase reader (fiona), a
raster image loader (PIL/numpy) and a plotting toolkit (matplotlib/seaborn).

Vector datasets are modelled as an attribute-column schema plus an ordered
list of rows; each row carries an abstract geometry identifier and an
association list of attribute values.  Library primitives that can raise
(`gpd.overlay`, `GeoDataFrame.to_file`, reading a file) are supplied through
an environment record; primitives whose behaviour the code relies on
(`gpd.tools.sjoin`, pandas column access and `isin`-filtering, numpy band
slicing, Python list iterators) are modelled concretely.  Raising is
modelled with `Except`; the persisted files with an association list from
path to dataset.
-/

namespace SatClass

/-- One feature of a vector dataset: an abstract geometry identifier and the
attribute row as an association list from column name to value. -/
structure Row where
  geom : Nat
  attrs : List (String × Int)
  deriving DecidableEq, Repr

/-- A vector dataset (GeoDataFrame): its attribute schema and its ordered rows. -/
structure Dataset where
  cols : List String
  rows : List Row
  deriving DecidableEq, Repr

/-- A dataset is well formed when every attribute key of every row is a column
of its schema. -/
def WF (d : Dataset) : Prop :=
  ∀ r ∈ d.rows, ∀ kv ∈ r.attrs, kv.1 ∈ d.cols

instance (d : Dataset) : Decidable (WF d) := by
  unfold WF; infer_instance

/-- The attribute value a row holds in column `c` (0 when absent; with a
well-formed dataset and a present column it is never absent). -/
def getAttr (r : Row) (c : String) : Int :=
  (r.attrs.lookup c).getD 0

/-- Pandas column access `d[c]`: the column's values in row order, or a
`KeyError` when `c` is not a column of the schema. -/
def getColumn (d : Dataset) (c : String) : Except String (List Int) :=
  if c ∈ d.cols then .ok (d.rows.map (fun r => getAttr r c)) else .error ("KeyError: " ++ c)

/-- Environment for `load_shapefile`: the vector-file reader
(`gpd.read_file`), which yields a dataset for every path. -/
structure LoadEnv where
  read : String → Dataset

/-- Function `load_shapefile` (helper.py lines 11-27): read the dataset at `path` and,
when the `zipcodes` list is non-empty (Python truthiness of the list), keep
only the rows whose `ZCTA5CE10` value is in the list.  Column access on a
dataset without that column raises, modelled as `Except.error`. -/
def load_shapefile (env : LoadEnv) (path : String) (zipcodes : List Int := []) :
    Except String Dataset :=
  let data := env.read path
  if zipcodes.isEmpty then
    .ok data
  else
    match getColumn data "ZCTA5CE10" with
    | .error e => .error e
    | .ok _ =>
        .ok { cols := data.cols
              rows := data.rows.filter (fun r => getAttr r "ZCTA5CE10" ∈ zipcodes) }

/-- C4: `load_shapefile` with a non-empty identifier set returns exactly the
rows of the read dataset whose `ZCTA5CE10` value is in the set, in the
dataset's original row order (the kept rows form a sublist); with an empty
(or defaulted) set it returns the dataset unfiltered and unchanged. -/
theorem load_shapefile_subset (env : LoadEnv) (path : String) (zipcodes : List Int) :
    (zipcodes = [] → load_shapefile env path zipcodes = .ok (env.read path)) ∧
    (zipcodes ≠ [] → "ZCTA5CE10" ∈ (env.read path).cols →
      load_shapefile env path zipcodes =
        .ok { cols := (env.read path).cols
              rows := (env.read path).rows.filter
                        (fun r => getAttr r "ZCTA5CE10" ∈ zipcodes) } ∧
      ((env.read path).rows.filter (fun r => getAttr r "ZCTA5CE10" ∈ zipcodes)).Sublist
        (env.read path).rows) := by
  constructor
  · intro h
    subst h
    simp [load_shapefile]
  · intro hne hcol
    refine ⟨?_, List.filter_sublist _⟩
    simp only [load_shapefile, List.isEmpty_iff, hne, if_false, getColumn, hcol, if_pos]

/-- Witness for C4 at a concrete dataset and identifier set. -/
theorem load_shapefile_subset_witness :
    ([(7 : Int)] ≠ [] ∧
      "ZCTA5CE10" ∈ (Dataset.mk ["ZCTA5CE10"]
        [⟨0, [("ZCTA5CE10", 7)]⟩, ⟨1, [("ZCTA5CE10", 8)]⟩]).cols) ∧
    (load_shapefile ⟨fun _ => Dataset.mk ["ZCTA5CE10"]
        [⟨0, [("ZCTA5CE10", 7)]⟩, ⟨1, [("ZCTA5CE10", 8)]⟩]⟩ "z.shp" [(7 : Int)] =
      .ok { cols := ["ZCTA5CE10"], rows := [⟨0, [("ZCTA5CE10", 7)]⟩] } ∧
      [Row.mk 0 [("ZCTA5CE10", 7)]].Sublist
        [Row.mk 0 [("ZCTA5CE10", 7)], Row.mk 1 [("ZCTA5CE10", 8)]]) := by
  refine ⟨⟨by decide, by decide⟩, ?_⟩
  have h := (load_shapefile_subset ⟨fun _ => Dataset.mk ["ZCTA5CE10"]
      [⟨0, [("ZCTA5CE10", 7)]⟩, ⟨1, [("ZCTA5CE10", 8)]⟩]⟩ "z.shp" [(7 : Int)]).2
      (by decide) (by decide)
  simpa using h

/-- The persisted files: an association list from file path to the dataset
last written there (later writes shadow earlier ones). -/
abbrev FS : Type := List (String × Dataset)

/-- Environment for `subset_aoi`: the geometric-intersects predicate on
geometries (driving `gpd.tools.sjoin` with `op = intersects`), the overlay
engine `gpd.overlay(..., how = intersection)` which may raise (e.g. on mixed
geometry dimensionality), and the failure behaviour of
`GeoDataFrame.to_file`. -/
structure Env where
  inter : Nat → Nat → Bool
  overlay : Dataset → Dataset → Except String Dataset
  writeErr : Dataset → String → Option String

/-- Method `GeoDataFrame.to_file`: persist `d` at `fp`, or raise as dictated by the
environment. -/
def to_file (env : Env) (d : Dataset) (fp : String) (fs : FS) : Except String FS :=
  match env.writeErr d fp with
  | some e => .error e
  | none => .ok ((fp, d) :: fs)

/-- Rename the keys of an attribute row that collide with the other frame's
columns, as the spatial join does (`_left` / `_right` suffixes). -/
def suffixKeys (attrs : List (String × Int)) (other : List String) (suf : String) :
    List (String × Int) :=
  attrs.map (fun kv => (if kv.1 ∈ other then kv.1 ++ suf else kv.1, kv.2))

/-- Join `gpd.tools.sjoin(left, right, how = inner, op = intersects)`: one output
row per pair of a left row and a right row whose geometries intersect, in
left-major order, keeping the left geometry; attribute columns shared by both
frames are disambiguated with `_left` / `_right` suffixes. -/
def sjoin (inter : Nat → Nat → Bool) (left right : Dataset) : Dataset :=
  { cols := left.cols.map (fun c => if c ∈ right.cols then c ++ "_left" else c)
        ++ right.cols.map (fun c => if c ∈ left.cols then c ++ "_right" else c)
    rows := left.rows.flatMap (fun ra =>
        (right.rows.filter (fun rb => inter ra.geom rb.geom)).map (fun rb =>
          { geom := ra.geom
            attrs := suffixKeys ra.attrs right.cols "_left"
                  ++ suffixKeys rb.attrs left.cols "_right" })) }

/-- The `intersect = False` selection of `subset_aoi` (helper.py lines 55-58):
join `aoi` against `shape`, read the joined frame's `osm_id` column, and keep
the rows of `shape` whose `osm_id` is among those values. -/
def sjoinSelect (inter : Nat → Nat → Bool) (aoi shape : Dataset) : Except String Dataset :=
  match getColumn (sjoin inter aoi shape) "osm_id" with
  | .error e => .error e
  | .ok osm_id =>
      if "osm_id" ∈ shape.cols then
        .ok { cols := shape.cols
              rows := shape.rows.filter (fun r => getAttr r "osm_id" ∈ osm_id) }
      else .error ("KeyError: " ++ "osm_id")

/-- The `intersect = False` branch of `subset_aoi` (helper.py lines 52-59):
compute the join-based selection and write it to `save_fp`. -/
def sjoinBranchWrite (env : Env) (aoi shape : Dataset) (save_fp : String) (fs : FS) :
    Except String FS :=
  match sjoinSelect env.inter aoi shape with
  | .error e => .error e
  | .ok sel => to_file env sel save_fp fs

/-- The fallback of `subset_aoi` (helper.py lines 64-67), transcribed
separately: the source duplicates the join-based selection and write inside
the `except` handler. -/
def sjoinFallbackWrite (env : Env) (aoi shape : Dataset) (save_fp : String) (fs : FS) :
    Except String FS :=
  match sjoinSelect env.inter aoi shape with
  | .error e => .error e
  | .ok sel => to_file env sel save_fp fs

/-- The `intersect = True` branch of `subset_aoi` (helper.py lines 45-51):
overlay the two frames and write the result. -/
def overlayWrite (env : Env) (aoi shape : Dataset) (save_fp : String) (fs : FS) :
    Except String FS :=
  match env.overlay aoi shape with
  | .error e => .error e
  | .ok new => to_file env new save_fp fs

/-- The computation `subset_aoi` first attempts, as chosen by the
`intersect` flag. -/
def primaryAttempt (env : Env) (aoi shape : Dataset) (save_fp : String)
    (intersect : Bool) (fs : FS) : Except String FS :=
  if intersect then overlayWrite env aoi shape save_fp fs
  else sjoinBranchWrite env aoi shape save_fp fs

/-- Function `subset_aoi` (helper.py lines 29-72): try the chosen computation; on any
raise, retry once with the join-based selection (the handler's code is an
inline copy of the `intersect = False` branch); on a second raise return
`False`.  The function never raises: every exception is caught. -/
def subset_aoi (env : Env) (aoi shape : Dataset) (save_fp : String)
    (intersect : Bool := true) (fs : FS := []) : Bool × FS :=
  let primary : Except String FS :=
    if intersect then
      match env.overlay aoi shape with
      | .error e => .error e
      | .ok new => to_file env new save_fp fs
    else
      match sjoinSelect env.inter aoi shape with
      | .error e => .error e
      | .ok sel => to_file env sel save_fp fs
  match primary with
  | .ok fs' => (true, fs')
  | .error _ =>
      match
        (match sjoinSelect env.inter aoi shape with
         | .error e => .error e
         | .ok sel => to_file env sel save_fp fs : Except String FS) with
      | .ok fs' => (true, fs')
      | .error _ => (false, fs)

/-- C1: `subset_aoi` is total (never raises) and returns a boolean computed by
this two-stage policy: when the chosen computation succeeds it returns `true`
with its write; when it raises, exactly one fallback attempt is made with the
spatial-join overlap strategy, returning `true` with the fallback's write if
it succeeds and `false` (files unchanged) if it also raises. -/
theorem subset_aoi_fallback_policy (env : Env) (aoi shape : Dataset)
    (save_fp : String) (intersect : Bool) (fs : FS) :
    subset_aoi env aoi shape save_fp intersect fs =
      match primaryAttempt env aoi shape save_fp intersect fs with
      | .ok fs' => (true, fs')
      | .error _ =>
          match sjoinFallbackWrite env aoi shape save_fp fs with
          | .ok fs' => (true, fs')
          | .error _ => (false, fs) := by
  cases intersect <;>
    simp only [subset_aoi, primaryAttempt, overlayWrite, sjoinBranchWrite,
      sjoinFallbackWrite, if_true, if_false, Bool.false_eq_true]

/-- C3: the fallback computation of `subset_aoi` is extensionally equal to the
`intersect = False` branch: on the same inputs both produce the same selection
of `shape` rows and the same write to the same path (the source duplicates
the code verbatim). -/
theorem fallback_eq_join_branch (env : Env) (aoi shape : Dataset)
    (save_fp : String) (fs : FS) :
    sjoinFallbackWrite env aoi shape save_fp fs =
      sjoinBranchWrite env aoi shape save_fp fs := rfl

/-- The identifier values appearing among the rows of the inner spatial join
of `aoi` and `shape`: one `osm_id` per joined pair, taken from the `shape`
row of the pair (the join keeps whole rows, so these are `shape`'s own
identifier values). -/
def joinIdsSpec (inter : Nat → Nat → Bool) (aoi shape : Dataset) : List Int :=
  (aoi.rows.flatMap (fun ra => shape.rows.filter (fun rb => inter ra.geom rb.geom))).map
    (fun rb => getAttr rb "osm_id")

theorem lookup_pair_cons {β : Type} (a k : String) (v : β) (l : List (String × β)) :
    ((k, v) :: l).lookup a = if k = a then some v else l.lookup a := by
  by_cases h : k = a
  · subst h; simp [List.lookup]
  · have hb : (a == k) = false := beq_eq_false_iff_ne.mpr (Ne.symm h)
    simp [List.lookup, hb, h]

theorem append_left_ne_osm (k : String) : k ++ "_left" ≠ "osm_id" := by
  intro h
  have hd : k.data ++ ['_', 'l', 'e', 'f', 't'] = ['o', 's', 'm', '_', 'i', 'd'] := by
    simpa using congrArg String.data h
  have hlen : k.data.length = 1 := by
    have hl := congrArg List.length hd
    simp only [List.length_append, List.length_cons, List.length_nil] at hl
    omega
  obtain ⟨c, hc⟩ := List.length_eq_one.mp hlen
  rw [hc] at hd
  simp only [List.cons_append, List.nil_append, List.cons.injEq] at hd
  exact absurd hd.2.1 (by decide)

theorem append_right_ne_osm (k : String) : k ++ "_right" ≠ "osm_id" := by
  intro h
  have hd : k.data ++ ['_', 'r', 'i', 'g', 'h', 't'] = ['o', 's', 'm', '_', 'i', 'd'] := by
    simpa using congrArg String.data h
  have hlen : k.data.length = 0 := by
    have hl := congrArg List.length hd
    simp only [List.length_append, List.length_cons, List.length_nil] at hl
    omega
  rw [List.length_eq_zero.mp hlen] at hd
  simp only [List.nil_append, List.cons.injEq] at hd
  exact absurd hd.1 (by decide)

theorem lookup_none_of_keys_ne {l : List (String × Int)} {a : String}
    (h : ∀ kv ∈ l, kv.1 ≠ a) : l.lookup a = none := by
  induction l with
  | nil => rfl
  | cons kv t ih =>
      rw [show kv = (kv.1, kv.2) from rfl, lookup_pair_cons,
        if_neg (h kv (List.mem_cons_self _ _))]
      exact ih (fun kv' h' => h kv' (List.mem_cons_of_mem _ h'))

theorem lookup_append_of_left_none {l₁ l₂ : List (String × Int)} {a : String}
    (h : l₁.lookup a = none) : (l₁ ++ l₂).lookup a = l₂.lookup a := by
  induction l₁ with
  | nil => rfl
  | cons kv t ih =>
      rw [show kv = (kv.1, kv.2) from rfl, lookup_pair_cons] at h
      rw [List.cons_append, show kv = (kv.1, kv.2) from rfl, lookup_pair_cons]
      by_cases hk : kv.1 = a
      · rw [if_pos hk] at h; cases h
      · rw [if_neg hk]
        exact ih (by rwa [if_neg hk] at h)

/-- Keys that collide get suffixed away from `osm_id`, keys that do not are
not `osm_id` either (they live in `aoi`'s schema, which lacks it): the left
half of a joined row never answers an `osm_id` lookup. -/
theorem lookup_suffixed_left_none {attrs : List (String × Int)} {acols scols : List String}
    (hk : ∀ kv ∈ attrs, kv.1 ∈ acols) (ha : "osm_id" ∉ acols) :
    (suffixKeys attrs scols "_left").lookup "osm_id" = none := by
  apply lookup_none_of_keys_ne
  intro kv hkv
  obtain ⟨kv₀, h₀, hmap⟩ := List.mem_map.mp hkv
  subst hmap
  by_cases hc : kv₀.1 ∈ scols
  · simpa [hc] using append_left_ne_osm kv₀.1
  · simp only [hc, if_false]
    intro h
    exact ha (h ▸ hk kv₀ h₀)

/-- Suffixing the right half of a joined row with the left frame's colliding
columns leaves the `osm_id` lookup unchanged when the left frame has no
`osm_id` column. -/
theorem lookup_suffixed_right {attrs : List (String × Int)} {acols : List String}
    (ha : "osm_id" ∉ acols) :
    (suffixKeys attrs acols "_right").lookup "osm_id" = attrs.lookup "osm_id" := by
  induction attrs with
  | nil => rfl
  | cons kv t ih =>
      rw [show kv = (kv.1, kv.2) from rfl]
      by_cases hc : kv.1 ∈ acols
      · have hne : kv.1 ≠ "osm_id" := fun h => ha (h ▸ hc)
        simp only [suffixKeys, List.map_cons, hc, if_true]
        rw [lookup_pair_cons, if_neg (append_right_ne_osm kv.1), lookup_pair_cons,
          if_neg hne]
        exact ih
      · simp only [suffixKeys, List.map_cons, hc, if_false]
        rw [lookup_pair_cons, lookup_pair_cons]
        by_cases hk : kv.1 = "osm_id"
        · rw [if_pos hk, if_pos hk]
        · rw [if_neg hk, if_neg hk]; exact ih

theorem osm_mem_sjoin_cols {inter : Nat → Nat → Bool} {aoi shape : Dataset}
    (hs : "osm_id" ∈ shape.cols) (ha : "osm_id" ∉ aoi.cols) :
    "osm_id" ∈ (sjoin inter aoi shape).cols := by
  apply List.mem_append_right
  exact List.mem_map.mpr ⟨"osm_id", hs, by simp [ha]⟩

/-- Reading the `osm_id` column of the inner spatial join yields exactly the
`shape`-side identifier of each joined pair, when `shape` has the column and
`aoi` (well formed) does not. -/
theorem getColumn_sjoin_osm {inter : Nat → Nat → Bool} {aoi shape : Dataset}
    (hwf : WF aoi) (hs : "osm_id" ∈ shape.cols) (ha : "osm_id" ∉ aoi.cols) :
    getColumn (sjoin inter aoi shape) "osm_id" = .ok (joinIdsSpec inter aoi shape) := by
  rw [getColumn, if_pos (osm_mem_sjoin_cols hs ha)]
  congr 1
  show ((sjoin inter aoi shape).rows.map (fun r => getAttr r "osm_id")) = _
  rw [joinIdsSpec, sjoin, List.map_flatMap, List.map_flatMap]
  apply List.flatMap_congr
  intro ra hra
  rw [List.map_map]
  apply List.map_congr_left
  intro rb _
  show getAttr _ "osm_id" = getAttr rb "osm_id"
  rw [getAttr, getAttr]
  congr 1
  rw [lookup_append_of_left_none (lookup_suffixed_left_none (hwf ra hra) ha)]
  exact lookup_suffixed_right ha

/-- C2: with `intersect = false` (and `shape` carrying the `osm_id` column,
`aoi` well formed without one, and the write succeeding), `subset_aoi`
returns `true` and writes to the output path exactly the rows of `shape`
whose `osm_id` appears among the rows of the inner spatial join of `aoi` and
`shape` under the intersects predicate; the written rows are whole,
unmodified `shape` rows (literally filtered from `shape.rows`, hence a
sublist: original order, no geometry altered). -/
theorem subset_aoi_join_selection (env : Env) (aoi shape : Dataset)
    (save_fp : String) (fs : FS)
    (hwf : WF aoi) (hs : "osm_id" ∈ shape.cols) (ha : "osm_id" ∉ aoi.cols)
    (hw : env.writeErr
        { cols := shape.cols
          rows := shape.rows.filter
            (fun r => getAttr r "osm_id" ∈ joinIdsSpec env.inter aoi shape) } save_fp = none) :
    subset_aoi env aoi shape save_fp false fs =
      (true,
        (save_fp,
          { cols := shape.cols
            rows := shape.rows.filter
              (fun r => getAttr r "osm_id" ∈ joinIdsSpec env.inter aoi shape) }) :: fs) ∧
    (shape.rows.filter
        (fun r => getAttr r "osm_id" ∈ joinIdsSpec env.inter aoi shape)).Sublist
      shape.rows := by
  refine ⟨?_, List.filter_sublist _⟩
  simp only [subset_aoi, Bool.false_eq_true, if_false, sjoinSelect,
    getColumn_sjoin_osm hwf hs ha, hs, if_true, to_file, hw]

/-- Concrete environment for witnesses: geometries intersect when their
identifiers agree, the overlay engine rejects its input, writes always
succeed. -/
def envW : Env :=
  { inter := fun a b => a == b
    overlay := fun _ _ => .error "overlay rejected"
    writeErr := fun _ _ => none }

/-- Concrete area of interest for witnesses: one feature, schema without
`osm_id`. -/
def aoiW : Dataset := { cols := ["zone"], rows := [⟨1, [("zone", 0)]⟩] }

/-- Concrete shape for witnesses: two features keyed by `osm_id`; only the
first shares a geometry with `aoiW`. -/
def shapeW : Dataset :=
  { cols := ["osm_id"], rows := [⟨1, [("osm_id", 10)]⟩, ⟨2, [("osm_id", 20)]⟩] }

/-- Witness for C2 at a concrete pair of datasets. -/
theorem subset_aoi_join_selection_witness :
    (WF aoiW ∧ "osm_id" ∈ shapeW.cols ∧ "osm_id" ∉ aoiW.cols ∧
      envW.writeErr
        { cols := shapeW.cols
          rows := shapeW.rows.filter
            (fun r => getAttr r "osm_id" ∈ joinIdsSpec envW.inter aoiW shapeW) }
        "out.shp" = none) ∧
    (subset_aoi envW aoiW shapeW "out.shp" false [] =
      (true,
        ("out.shp",
          { cols := shapeW.cols
            rows := shapeW.rows.filter
              (fun r => getAttr r "osm_id" ∈ joinIdsSpec envW.inter aoiW shapeW) }) :: []) ∧
    (shapeW.rows.filter
        (fun r => getAttr r "osm_id" ∈ joinIdsSpec envW.inter aoiW shapeW)).Sublist
      shapeW.rows) :=
  ⟨⟨by decide, by decide, by decide, rfl⟩,
    subset_aoi_join_selection envW aoiW shapeW "out.shp" []
      (by decide) (by decide) (by decide) rfl⟩

/-- C8: `subset_aoi` never mutates its input datasets (they are values in
this embedding, and the code only builds new frames), and its only effect on
the persisted files is at the output path: the resulting file store is either
unchanged or extends the old one with a single write at `save_fp`, and every
other path still maps to exactly what it mapped to before the call. -/
theorem subset_aoi_frame (env : Env) (aoi shape : Dataset) (save_fp : String)
    (intersect : Bool) (fs : FS) :
    ((subset_aoi env aoi shape save_fp intersect fs).2 = fs ∨
      ∃ d, (subset_aoi env aoi shape save_fp intersect fs).2 = (save_fp, d) :: fs) ∧
    ∀ p, p ≠ save_fp →
      List.lookup p (subset_aoi env aoi shape save_fp intersect fs).2 =
        List.lookup p fs := by
  have hcases : (subset_aoi env aoi shape save_fp intersect fs).2 = fs ∨
      ∃ d, (subset_aoi env aoi shape save_fp intersect fs).2 = (save_fp, d) :: fs := by
    cases intersect
    · cases hsel : sjoinSelect env.inter aoi shape with
      | error e => left; simp [subset_aoi, hsel]
      | ok sel =>
          cases hw : env.writeErr sel save_fp with
          | some e => left; simp [subset_aoi, hsel, to_file, hw]
          | none => right; exact ⟨sel, by simp [subset_aoi, hsel, to_file, hw]⟩
    · cases hov : env.overlay aoi shape with
      | error e =>
          cases hsel : sjoinSelect env.inter aoi shape with
          | error e2 => left; simp [subset_aoi, hov, hsel]
          | ok sel =>
              cases hw : env.writeErr sel save_fp with
              | some e2 => left; simp [subset_aoi, hov, hsel, to_file, hw]
              | none => right; exact ⟨sel, by simp [subset_aoi, hov, hsel, to_file, hw]⟩
      | ok new =>
          cases hw : env.writeErr new save_fp with
          | some e =>
              cases hsel : sjoinSelect env.inter aoi shape with
              | error e2 => left; simp [subset_aoi, hov, to_file, hw, hsel]
              | ok sel =>
                  cases hw2 : env.writeErr sel save_fp with
                  | some e2 => left; simp [subset_aoi, hov, to_file, hw, hsel, hw2]
                  | none =>
                      right
                      exact ⟨sel, by simp [subset_aoi, hov, to_file, hw, hsel, hw2]⟩
          | none => right; exact ⟨new, by simp [subset_aoi, hov, to_file, hw]⟩
  refine ⟨hcases, fun p hp => ?_⟩
  rcases hcases with h | ⟨d, h⟩
  · rw [h]
  · rw [h, lookup_pair_cons, if_neg (fun he => hp he.symm)]

/-- Witness for C8 at a concrete call (a path other than the output path is
untouched). -/
theorem subset_aoi_frame_witness :
    ((subset_aoi envW aoiW shapeW "out.shp" false [("old.shp", aoiW)]).2 =
        [("old.shp", aoiW)] ∨
      ∃ d, (subset_aoi envW aoiW shapeW "out.shp" false [("old.shp", aoiW)]).2 =
        ("out.shp", d) :: [("old.shp", aoiW)]) ∧
    ("old.shp" ≠ "out.shp" ∧
      List.lookup "old.shp"
          (subset_aoi envW aoiW shapeW "out.shp" false [("old.shp", aoiW)]).2 =
        List.lookup "old.shp" [("old.shp", aoiW)]) := by
  have h := subset_aoi_frame envW aoiW shapeW "out.shp" false [("old.shp", aoiW)]
  exact ⟨h.1, by decide, h.2 "old.shp" (by decide)⟩

/-- When `shape` has no `osm_id` column, the join-based selection raises the
same `KeyError` whichever side the joined frame inherited an `osm_id` column
from (or none). -/
theorem sjoinSelect_error_of_missing {inter : Nat → Nat → Bool} {aoi shape : Dataset}
    (hs : "osm_id" ∉ shape.cols) :
    sjoinSelect inter aoi shape = .error ("KeyError: " ++ "osm_id") := by
  by_cases hmem : "osm_id" ∈ (sjoin inter aoi shape).cols
  · simp [sjoinSelect, getColumn, hmem, hs]
  · simp [sjoinSelect, getColumn, hmem]

/-- C9: with `intersect = false` and a `shape` lacking the `osm_id` column,
the primary attempt and the fallback attempt fail with the same `KeyError`
lookup, so `subset_aoi` returns `false` without raising and without writing
anything. -/
theorem subset_aoi_missing_id (env : Env) (aoi shape : Dataset) (save_fp : String)
    (fs : FS) (hs : "osm_id" ∉ shape.cols) :
    sjoinBranchWrite env aoi shape save_fp fs = .error ("KeyError: " ++ "osm_id") ∧
    sjoinFallbackWrite env aoi shape save_fp fs = .error ("KeyError: " ++ "osm_id") ∧
    subset_aoi env aoi shape save_fp false fs = (false, fs) := by
  refine ⟨?_, ?_, ?_⟩
  · simp [sjoinBranchWrite, sjoinSelect_error_of_missing hs]
  · simp [sjoinFallbackWrite, sjoinSelect_error_of_missing hs]
  · simp [subset_aoi, sjoinSelect_error_of_missing hs]

/-- Witness for C9 at a concrete shape without an `osm_id` column. -/
theorem subset_aoi_missing_id_witness :
    ("osm_id" ∉ (Dataset.mk ["name"] [⟨5, [("name", 3)]⟩]).cols) ∧
    (sjoinBranchWrite envW aoiW (Dataset.mk ["name"] [⟨5, [("name", 3)]⟩]) "out.shp" [] =
        .error ("KeyError: " ++ "osm_id") ∧
      sjoinFallbackWrite envW aoiW (Dataset.mk ["name"] [⟨5, [("name", 3)]⟩]) "out.shp" [] =
        .error ("KeyError: " ++ "osm_id") ∧
      subset_aoi envW aoiW (Dataset.mk ["name"] [⟨5, [("name", 3)]⟩]) "out.shp" false [] =
        (false, [])) :=
  ⟨by decide,
    subset_aoi_missing_id envW aoiW (Dataset.mk ["name"] [⟨5, [("name", 3)]⟩]) "out.shp" []
      (by decide)⟩

/-- A decoded raster: rows of columns of pixels, each pixel the list of its
band values (`np.array(Image.open(fp))` with shape row x column x band). -/
abbrev Img : Type := List (List (List Int))

/-- Environment for `show_image`: the image decoder (`PIL.Image.open` plus
`np.array`). -/
structure ImgEnv where
  load : String → Img

/-- The band-selection step of `show_image` (helper.py lines 173-176): numpy
basic slicing `im[:,:,1:]` when infrared, `im[:,:,:3]` otherwise.  Slicing is
total: `drop`/`take` never fail, whatever the band count. -/
def bandSelect (infrared : Bool) (im : Img) : Img :=
  if infrared then im.map (fun row => row.map (fun p => p.drop 1))
  else im.map (fun row => row.map (fun p => p.take 3))

/-- Function `show_image` (helper.py lines 157-181): decode the image and select the
displayed bands; the result is the array handed to `plt.imshow`. -/
def show_image (env : ImgEnv) (fp : String) (save_path : String := "")
    (infrared : Bool := false) : Img :=
  let im := env.load fp
  bandSelect infrared im

/-- The value of band `k` of the pixel at row `i`, column `j` (none when out
of range in any dimension). -/
def px (im : Img) (i j k : Nat) : Option Int :=
  (im[i]?.bind (fun row => row[j]?)).bind (fun p => p[k]?)

/-- The band count of the pixel at row `i`, column `j`. -/
def pxBands (im : Img) (i j : Nat) : Option Nat :=
  (im[i]?.bind (fun row => row[j]?)).map List.length

theorem pixel_bandSelect (b : Bool) (im : Img) (i j : Nat) :
    (bandSelect b im)[i]?.bind (fun r => r[j]?) =
      (im[i]?.bind (fun r => r[j]?)).map
        (fun p => if b then p.drop 1 else p.take 3) := by
  cases b <;>
    · simp only [bandSelect, if_true, if_false, Bool.false_eq_true, List.getElem?_map]
      cases im[i]? with
      | none => rfl
      | some row => simp [List.getElem?_map]

/-- C10: the band-selection step of `show_image` is total over the band
dimension: with infrared it yields band `k` of the result as band `k + 1` of
the source (so an n-band source yields the n-1 bands 1..n-1, never an
indexing error), and without infrared it yields the first `min n 3` bands
unchanged, `none` (not an error) past band 3. -/
theorem show_image_band_total (env : ImgEnv) (fp save_path : String) (i j k : Nat) :
    px (show_image env fp save_path true) i j k = px (env.load fp) i j (k + 1) ∧
    (k < 3 → px (show_image env fp save_path false) i j k = px (env.load fp) i j k) ∧
    (3 ≤ k → px (show_image env fp save_path false) i j k = none) ∧
    pxBands (show_image env fp save_path true) i j =
      (pxBands (env.load fp) i j).map (fun n => n - 1) ∧
    pxBands (show_image env fp save_path false) i j =
      (pxBands (env.load fp) i j).map (fun n => min n 3) := by
  refine ⟨?_, fun hk => ?_, fun hk => ?_, ?_, ?_⟩ <;>
    · rw [show_image]
      simp only [px, pxBands]
      rw [pixel_bandSelect]
      cases (env.load fp)[i]?.bind (fun r => r[j]?) with
      | none => rfl
      | some p =>
          simp only [Option.map_some', Option.some_bind, if_true, if_false,
            Bool.false_eq_true]
          first
            | rw [List.getElem?_drop, Nat.add_comm]
            | exact List.getElem?_take_of_lt hk
            | exact List.getElem?_eq_none_iff.mpr
                (le_trans (le_trans (Nat.le_of_eq (List.length_take 3 p))
                  (min_le_left 3 p.length)) hk)
            | rw [List.length_drop]
            | rw [List.length_take, Nat.min_comm 3 p.length]

/-- Witness for C10 at a concrete 2-band image (infrared on a 2-band pixel
yields one band, no error). -/
theorem show_image_band_total_witness :
    px (show_image ⟨fun _ => [[[5, 6]]]⟩ "img.tif" "" true) 0 0 0 =
        px ([[[5, 6]]] : Img) 0 0 1 ∧
    ((0 : Nat) < 3 →
      px (show_image ⟨fun _ => [[[5, 6]]]⟩ "img.tif" "" false) 0 0 0 =
        px ([[[5, 6]]] : Img) 0 0 0) ∧
    ((3 : Nat) ≤ 0 →
      px (show_image ⟨fun _ => [[[5, 6]]]⟩ "img.tif" "" false) 0 0 0 = none) ∧
    pxBands (show_image ⟨fun _ => [[[5, 6]]]⟩ "img.tif" "" true) 0 0 =
      (pxBands ([[[5, 6]]] : Img) 0 0).map (fun n => n - 1) ∧
    pxBands (show_image ⟨fun _ => [[[5, 6]]]⟩ "img.tif" "" false) 0 0 =
      (pxBands ([[[5, 6]]] : Img) 0 0).map (fun n => min n 3) :=
  show_image_band_total ⟨fun _ => [[[5, 6]]]⟩ "img.tif" "" 0 0 0

/-- C5: on a 4-band image, `show_image` with infrared selects exactly bands
1, 2, 3 of the source (band `k` of the display equals band `k + 1` of the
source, and every displayed pixel has exactly 3 bands), and without infrared
exactly bands 0, 1, 2 (band `k` of the display equals band `k` of the
source), pixel for pixel. -/
theorem show_image_four_band (env : ImgEnv) (fp save_path : String) (i j k : Nat)
    (h4 : ∀ row ∈ env.load fp, ∀ p ∈ row, p.length = 4) (hk : k < 3) :
    px (show_image env fp save_path true) i j k = px (env.load fp) i j (k + 1) ∧
    px (show_image env fp save_path false) i j k = px (env.load fp) i j k ∧
    pxBands (show_image env fp save_path true) i j =
      (pxBands (env.load fp) i j).map (fun _ => 3) ∧
    pxBands (show_image env fp save_path false) i j =
      (pxBands (env.load fp) i j).map (fun _ => 3) := by
  have hp : ∀ p : List Int, (env.load fp)[i]?.bind (fun r => r[j]?) = some p →
      p.length = 4 := by
    intro p hpx
    cases him : (env.load fp)[i]? with
    | none => rw [him] at hpx; cases hpx
    | some row =>
        rw [him, Option.some_bind] at hpx
        exact h4 row (List.getElem?_mem him) p (List.getElem?_mem hpx)
  refine ⟨?_, ?_, ?_, ?_⟩ <;>
    · rw [show_image]
      simp only [px, pxBands]
      rw [pixel_bandSelect]
      cases hpx : (env.load fp)[i]?.bind (fun r => r[j]?) with
      | none => rfl
      | some p =>
          have hlen := hp p hpx
          simp only [Option.map_some', Option.some_bind, if_true, if_false,
            Bool.false_eq_true]
          first
            | rw [List.getElem?_drop, Nat.add_comm]
            | exact List.getElem?_take_of_lt hk
            | rw [List.length_drop, hlen]
            | (rw [List.length_take, hlen]; decide)

/-- Witness for C5 at a concrete 4-band image. -/
theorem show_image_four_band_witness :
    ((∀ row ∈ ([[[1, 2, 3, 4]]] : Img), ∀ p ∈ row, p.length = 4) ∧ (1 : Nat) < 3) ∧
    (px (show_image ⟨fun _ => [[[1, 2, 3, 4]]]⟩ "img.tif" "" true) 0 0 1 =
        px ([[[1, 2, 3, 4]]] : Img) 0 0 2 ∧
      px (show_image ⟨fun _ => [[[1, 2, 3, 4]]]⟩ "img.tif" "" false) 0 0 1 =
        px ([[[1, 2, 3, 4]]] : Img) 0 0 1 ∧
      pxBands (show_image ⟨fun _ => [[[1, 2, 3, 4]]]⟩ "img.tif" "" true) 0 0 =
        (pxBands ([[[1, 2, 3, 4]]] : Img) 0 0).map (fun _ => 3) ∧
      pxBands (show_image ⟨fun _ => [[[1, 2, 3, 4]]]⟩ "img.tif" "" false) 0 0 =
        (pxBands ([[[1, 2, 3, 4]]] : Img) 0 0).map (fun _ => 3)) :=
  ⟨⟨by decide, by decide⟩,
    show_image_four_band ⟨fun _ => [[[1, 2, 3, 4]]]⟩ "img.tif" "" 0 0 1
      (by decide) (by decide)⟩

/-- One feature of a geodatabase layer: an abstract geometry and the
non-geometry attribute row (`feature['properties']`). -/
structure Feature where
  geom : Nat
  props : List (String × Int)
  deriving DecidableEq, Repr

/-- An opened geodatabase layer (a fiona collection): its coordinate
reference system, schema and ordered features. -/
structure Collection where
  crs : Nat
  schema : Nat
  features : List Feature
  deriving DecidableEq, Repr

/-- A file written by `peel_geodatabase`: either a standalone vector file
(ESRI shapefile) with its crs, schema and features, or a delimited text
(CSV) serialization of the attribute rows. -/
inductive OutFile where
  | shp (crs schema : Nat) (feats : List Feature)
  | csv (tableRows : List (List (String × Int)))
  deriving DecidableEq, Repr

/-- The hardcoded input geodatabase path of `peel_geodatabase`. -/
def datasrc_path : String := "./data/2016blockgroupca.gdb"

/-- The single designated geometry-bearing layer of the geodatabase. -/
def geomLayer : String := "ACS_2016_5YR_BG_06_CALIFORNIA"

/-- The hardcoded output directory of `peel_geodatabase`. -/
def outDir : String := "./data/ACS2016/"

/-- Environment for `peel_geodatabase`: `fiona.listlayers` and
`fiona.open` (the boolean records whether the specialized `OpenFileGDB`
driver mode was used to open the layer). -/
structure GdbEnv where
  listlayers : String → List String
  openLayer : String → String → Bool → Collection

/-- The per-layer loop of `peel_geodatabase` (helper.py lines 129-155): for
each layer name, reset the `features` accumulator, open the layer (with the
`OpenFileGDB` driver exactly for the designated geometry-bearing layer),
then either copy every feature verbatim into a standalone `.shp` file
preserving the collection's crs and schema, or collect every feature's
properties row in order and serialize the layer to a `.csv` file. -/
def peelLoop (env : GdbEnv) : List String → List (String × OutFile)
  | [] => []
  | layer_name :: rest =>
      let features : List (List (String × Int)) := []
      let collection := env.openLayer datasrc_path layer_name (layer_name == geomLayer)
      let out :=
        if layer_name = geomLayer then
          (outDir ++ layer_name ++ ".shp",
            OutFile.shp collection.crs collection.schema collection.features)
        else
          (outDir ++ layer_name ++ ".csv",
            OutFile.csv (features ++ collection.features.map Feature.props))
      out :: peelLoop env rest

/-- Function `peel_geodatabase` (helper.py lines 119-155): enumerate the layers of
the hardcoded geodatabase and write one output file per layer. -/
def peel_geodatabase (env : GdbEnv) : List (String × OutFile) :=
  peelLoop env (env.listlayers datasrc_path)

/-- C6: `peel_geodatabase` writes exactly one output file per enumerated
layer (the output list is indexed by the layer list), and the `i`-th output
is a verbatim standalone vector copy — same crs, same schema, all features —
exactly when the `i`-th layer is the designated geometry-bearing layer, and
otherwise the CSV of its features' attribute rows in order. -/
theorem peel_geodatabase_outputs (env : GdbEnv) (i : Nat) :
    (peel_geodatabase env).length = (env.listlayers datasrc_path).length ∧
    ∀ layer_name, (env.listlayers datasrc_path)[i]? = some layer_name →
      (peel_geodatabase env)[i]? =
        some
          (if layer_name = geomLayer then
            (outDir ++ layer_name ++ ".shp",
              OutFile.shp (env.openLayer datasrc_path layer_name (layer_name == geomLayer)).crs
                (env.openLayer datasrc_path layer_name (layer_name == geomLayer)).schema
                (env.openLayer datasrc_path layer_name (layer_name == geomLayer)).features)
          else
            (outDir ++ layer_name ++ ".csv",
              OutFile.csv
                ((env.openLayer datasrc_path layer_name
                  (layer_name == geomLayer)).features.map Feature.props))) := by
  rw [peel_geodatabase]
  induction (env.listlayers datasrc_path) generalizing i with
  | nil => exact ⟨rfl, fun _ h => by cases h⟩
  | cons hd tl ih =>
      refine ⟨?_, ?_⟩
      · rw [peelLoop]
        simpa using (ih 0).1
      · intro layer_name hname
        cases i with
        | zero =>
            rw [List.getElem?_cons_zero] at hname
            have hEq : hd = layer_name := by injection hname
            rw [peelLoop, List.getElem?_cons_zero, hEq]
            by_cases h : layer_name = geomLayer <;> simp [h]
        | succ n =>
            rw [List.getElem?_cons_succ] at hname
            rw [peelLoop, List.getElem?_cons_succ]
            exact (ih n).2 layer_name hname

/-- Witness for C6 with a concrete two-layer geodatabase: the designated
layer goes to a shapefile, the tabular layer to a CSV. -/
theorem peel_geodatabase_outputs_witness :
    ((["ACS_2016_5YR_BG_06_CALIFORNIA", "X20_HOUSING"] : List String)[0]? =
        some "ACS_2016_5YR_BG_06_CALIFORNIA") ∧
    (peel_geodatabase
        ⟨fun _ => ["ACS_2016_5YR_BG_06_CALIFORNIA", "X20_HOUSING"],
          fun _ _ _ => ⟨4269, 7, [⟨1, [("GEOID", 60)]⟩]⟩⟩)[0]? =
      some ("./data/ACS2016/ACS_2016_5YR_BG_06_CALIFORNIA.shp",
        OutFile.shp 4269 7 [⟨1, [("GEOID", 60)]⟩]) := by
  constructor
  · decide
  · have h :=
      (peel_geodatabase_outputs
        ⟨fun _ => ["ACS_2016_5YR_BG_06_CALIFORNIA", "X20_HOUSING"],
          fun _ _ _ => ⟨4269, 7, [⟨1, [("GEOID", 60)]⟩]⟩⟩ 0).2
        "ACS_2016_5YR_BG_06_CALIFORNIA" (by decide)
    simpa [geomLayer, outDir] using h

/-- A color handed to a layer's `plot` call: either a literal string or one
entry of the qualitative palette (palette colors abstracted as indices). -/
inductive ColorV where
  | s (v : String)
  | c (v : Nat)
  deriving DecidableEq, Repr

/-- A color setting as stored in the settings dict: a literal string, or a
Python list iterator over palette colors holding its remaining elements
(`iter(sns.color_palette("Paired"))`). -/
inductive ColorSrc where
  | str (v : String)
  | it (remaining : List Nat)
  deriving DecidableEq, Repr

/-- The per-layer color step (helper.py lines 103-110): when the setting is
not a string, call `next` on the iterator — raising `StopIteration` when it
is exhausted, as Python's `iter` over a list is finite, not cyclic — else
use the string itself. -/
def nextColor : ColorSrc → Except String (ColorV × ColorSrc)
  | .str v => .ok (.s v, .str v)
  | .it [] => .error "StopIteration"
  | .it (c :: rest) => .ok (.c c, .it rest)

/-- The recognized `graph_settings` overrides (helper.py lines 87-94): any
subset of the four default entries may be replaced. -/
structure GraphSettings where
  save : Option String := none
  fmt : Option String := none
  edgecolor : Option ColorSrc := none
  color : Option ColorSrc := none
  deriving DecidableEq, Repr

/-- The plotting loop of `plot_shapefile` (helper.py lines 101-113): each
layer in order draws its edge color and then its fill color from the two
settings, and is rendered with them. -/
def plotLoop (shapefiles : List Nat) (eSrc cSrc : ColorSrc) :
    Except String (List (Nat × ColorV × ColorV)) :=
  match shapefiles with
  | [] => .ok []
  | s :: rest =>
      match nextColor eSrc with
      | .error e => .error e
      | .ok (edge, eSrc') =>
          match nextColor cSrc with
          | .error e => .error e
          | .ok (col, cSrc') =>
              match plotLoop rest eSrc' cSrc' with
              | .error e => .error e
              | .ok tail => .ok ((s, edge, col) :: tail)

/-- Function `plot_shapefile` (helper.py lines 74-117): build the settings dict —
fresh iterators over the `Paired` palette by default, overridden by any
supplied `graph_settings` — then render every layer in sequence.  The
result is the rendered list of (layer, edge color, fill color); a raised
`StopIteration` propagates (the function has no handler). -/
def plot_shapefile (paired : List Nat) (shapefiles : List Nat)
    (graph_settings : Option GraphSettings := none) :
    Except String (List (Nat × ColorV × ColorV)) :=
  let edgeSrc := match graph_settings with
    | none => ColorSrc.it paired
    | some g => g.edgecolor.getD (ColorSrc.it paired)
  let colSrc := match graph_settings with
    | none => ColorSrc.it paired
    | some g => g.color.getD (ColorSrc.it paired)
  plotLoop shapefiles edgeSrc colSrc

/-- Seaborn's `Paired` qualitative palette has 12 colors; they are abstracted
here as the indices 0..11. -/
def pairedPalette : List Nat := List.range 12

/-- C7 counterexample: with the default color configuration, a 13-layer list
over the 12-color `Paired` palette raises `StopIteration` at the 13th layer —
the default color sources are finite list iterators (`iter(...)`), not cyclic
sequences, so not every layer at any list position receives a color. -/
theorem plot_shapefile_not_cyclic :
    plot_shapefile pairedPalette (List.range 13) none = .error "StopIteration" := rfl

/-- C7 amended: with the default configuration the `i`-th layer receives the
`i`-th palette color for both edge and fill — from two finite (not cyclic)
iterators over the fixed palette, which requires no more layers than palette
colors — and a literal string color supplied for edge or fill is used
unchanged for every layer. -/
theorem plot_shapefile_colors (paired : List Nat) (shapefiles : List Nat) :
    (shapefiles.length ≤ paired.length →
      plot_shapefile paired shapefiles none =
        .ok ((shapefiles.zip paired).map (fun p => (p.1, ColorV.c p.2, ColorV.c p.2)))) ∧
    (∀ e c : String, ∀ sv fm : Option String,
      plot_shapefile paired shapefiles
          (some { save := sv, fmt := fm,
                  edgecolor := some (.str e), color := some (.str c) }) =
        .ok (shapefiles.map (fun s => (s, ColorV.s e, ColorV.s c)))) := by
  constructor
  · intro h
    rw [plot_shapefile]
    induction shapefiles generalizing paired with
    | nil => rfl
    | cons s rest ih =>
        cases paired with
        | nil => exact absurd h (by simp)
        | cons p ps =>
            rw [plotLoop]
            simp only [nextColor]
            rw [ih ps (Nat.le_of_succ_le_succ h)]
            simp
  · intro e c sv fm
    rw [plot_shapefile]
    simp only [Option.getD_some]
    induction shapefiles with
    | nil => rfl
    | cons s rest ih =>
        rw [plotLoop]
        simp only [nextColor]
        rw [ih]
        simp

/-- Witness for the amended C7 at a concrete palette and layer list, in both
the default-iterator and the literal-string configuration. -/
theorem plot_shapefile_colors_witness :
    ((List.length [8] ≤ List.length [3, 4]) ∧
      plot_shapefile [3, 4] [8] none = .ok [(8, ColorV.c 3, ColorV.c 3)]) ∧
    plot_shapefile [3, 4] [8]
        (some { save := none, fmt := none,
                edgecolor := some (.str "red"), color := some (.str "blue") }) =
      .ok [(8, ColorV.s "red", ColorV.s "blue")] := by
  refine ⟨⟨by decide, ?_⟩, ?_⟩
  · have h := (plot_shapefile_colors [3, 4] [8]).1 (by decide)
    simpa using h
  · have h := (plot_shapefile_colors [3, 4] [8]).2 "red" "blue" none none
    simpa using h

end SatClass
